import Mathlib

/-!
# TriPlan expense splitter: a shallow embedding

This file embeds the core computation of `src/app.py` (the TriPlan trip
expense planner) in Lean 4 and proves the specification's claims about it.

The Python source has two computations of the split:

* `even_split_expenses(total_airbnb_cost, participants_info, additional_expenses)`
  (lines 5–38): builds a Python `dict` mapping each participant *name* to its
  final rounded owed amount;
* the breakdown loop inside `main` (lines 211–239): recomputes, per
  participant list entry, `base_cost_share`, `per_person_additional` and the
  rounded `total_owed`, producing one row per entry.

Monetary amounts are embedded as exact rationals (`ℚ`).  The Python code
computes with binary64 floats; the spec's quantitative claims are stated
"exactly under exact arithmetic", which is what the `ℚ` model gives.  Where a
claim turns on the *binary* float value itself (the `.005` rounding
boundary), the exact dyadic rational value of the relevant IEEE-754 binary64
number is fed to the embedding explicitly; for the input used there every
floating-point operation on the Python side is exact, so the `ℚ` evaluation
coincides with the Python run.

A Python `dict` is embedded as an insertion-ordered association list
(`List (String × ℚ)`): assigning to a present key updates it in place,
assigning to an absent key appends.  This order-preserving semantics is what
CPython guarantees and is what makes the duplicate-name behaviour of
`even_split_expenses` observable.
-/

set_option linter.unusedVariables false

namespace TriPlan

/-- One entry of `participants_info`: a Python dict
`{"name": ..., "nights_stayed": ...}`.  `nights_stayed` is an integer
(the UI clamps it to `0..365`, but the core never validates, so we embed it
as `ℤ` and add non-negativity only where a claim assumes it). -/
structure Participant where
  name : String
  nights_stayed : ℤ
  deriving DecidableEq, Repr

/-- `additional_expenses`: a Python dict label ↦ amount.  The core reads it
only through `additional_expenses.values()`, so an association list is a
faithful embedding. -/
abbrev Expenses := List (String × ℚ)

/-- `total_night_units = sum(p['nights_stayed'] for p in participants_info
if p['nights_stayed'] > 0)` — computed identically at line 15 (inside
`even_split_expenses`) and line 211 (inside `main`). -/
def total_night_units (participants_info : List Participant) : ℤ :=
  ((participants_info.filter (fun p => p.nights_stayed > 0)).map
    (fun p => p.nights_stayed)).sum

/-- `total_shared_expenses = sum(additional_expenses.values())`
(lines 25 and 212). -/
def total_shared_expenses (additional_expenses : Expenses) : ℚ :=
  (additional_expenses.map Prod.snd).sum

/-- The per-participant accommodation share (lines 19–22 of
`even_split_expenses`, identically lines 219–222 of `main`, where it is
called `base_cost_share`):

    if total_night_units == 0:
        cost_share = total_cost / len(participants_info) if len(participants_info) > 0 else 0
    else:
        cost_share = total_cost * (nights_stayed / total_night_units)
-/
def cost_share (total_cost : ℚ) (participants_info : List Participant)
    (p : Participant) : ℚ :=
  if total_night_units participants_info = 0 then
    if participants_info.length > 0 then
      total_cost / (participants_info.length : ℚ)
    else 0
  else
    total_cost * ((p.nights_stayed : ℚ) / ((total_night_units participants_info : ℤ) : ℚ))

/-- `per_person_additional = total_shared_expenses / len(participants_info)
if len(participants_info) > 0 else 0` (lines 26–29, identically
lines 224–227). -/
def per_person_additional (participants_info : List Participant)
    (additional_expenses : Expenses) : ℚ :=
  if participants_info.length > 0 then
    total_shared_expenses additional_expenses / (participants_info.length : ℚ)
  else 0

/-- Python's `Decimal(x).quantize(Decimal("0.01"), rounding=ROUND_HALF_UP)`
on an exactly represented value: round to 2 decimal digits, ties away from
zero.  For `x ≥ 0` this is `⌊100·x + 1/2⌋ / 100`. -/
def roundHalfUp2 (x : ℚ) : ℚ :=
  if 0 ≤ x then ((⌊x * 100 + 1/2⌋ : ℤ) : ℚ) / 100
  else -(((⌊(-x) * 100 + 1/2⌋ : ℤ) : ℚ) / 100)

/-- Python dict assignment `d[k] = v`: updates the first (unique) binding of
`k` in place, otherwise appends a new binding (CPython insertion order). -/
def dict_set : List (String × ℚ) → String → ℚ → List (String × ℚ)
  | [], k, v => [(k, v)]
  | (k', v') :: d, k, v =>
      if k' = k then (k, v) :: d else (k', v') :: dict_set d k v

/-- Python `d[k] += x`: updates the binding of `k` in place.  (On a missing
key Python would raise `KeyError`; in `even_split_expenses` the first loop
has inserted every participant's name before `+=` runs, so that branch is
unreachable — the embedding leaves the list unchanged there.) -/
def dict_add : List (String × ℚ) → String → ℚ → List (String × ℚ)
  | [], _, _ => []
  | (k', v') :: d, k, x =>
      if k' = k then (k', v' + x) :: d else (k', v') :: dict_add d k x

/-- `even_split_expenses` (lines 5–38 of `src/app.py`):

    total_night_units = sum(...)
    shares = {}
    for participant in participants_info:
        ... cost_share ...
        shares[participant['name']] = cost_share
    total_shared_expenses = sum(additional_expenses.values())
    per_person_additional = ...
    for participant in participants_info:
        shares[participant['name']] += per_person_additional
    for participant, amount in shares.items():
        shares[participant] = float(Decimal(amount).quantize(Decimal("0.01"), rounding=ROUND_HALF_UP))
    return shares
-/
def even_split_expenses (total_airbnb_cost : ℚ)
    (participants_info : List Participant)
    (additional_expenses : Expenses) : List (String × ℚ) :=
  let shares1 := participants_info.foldl
    (fun shares p =>
      dict_set shares p.name (cost_share total_airbnb_cost participants_info p))
    []
  let shares2 := participants_info.foldl
    (fun shares p =>
      dict_add shares p.name (per_person_additional participants_info additional_expenses))
    shares1
  shares2.map (fun kv => (kv.1, roundHalfUp2 kv.2))

/-- One row of the breakdown DataFrame built in `main` (lines 233–239). -/
structure Row where
  participant : String
  nights_stayed : ℤ
  accommodation_share : ℚ
  additional_share : ℚ
  total_owed : ℚ
  deriving DecidableEq, Repr

/-- The breakdown loop of `main` (lines 211–239): one row per participant
list entry, in input order, with

    total_owed = base_cost_share + per_person_additional
    total_owed_rounded = float(Decimal(total_owed).quantize(Decimal("0.01"), rounding=ROUND_HALF_UP))
-/
def breakdown_rows (total_cost : ℚ) (participants_info : List Participant)
    (additional_expenses : Expenses) : List Row :=
  participants_info.map (fun p =>
    { participant := p.name
      nights_stayed := p.nights_stayed
      accommodation_share := cost_share total_cost participants_info p
      additional_share := per_person_additional participants_info additional_expenses
      total_owed := roundHalfUp2
        (cost_share total_cost participants_info p +
          per_person_additional participants_info additional_expenses) })

/-- Guarded division: `none` exactly when Python `a / b` would raise
`ZeroDivisionError`. -/
def cdiv (a b : ℚ) : Option ℚ :=
  if b = 0 then none else some (a / b)

/-- `cost_share` with every division routed through `cdiv`: the error
semantics of lines 19–22, where `/` can in principle fault. -/
def cost_share_checked (total_cost : ℚ) (participants_info : List Participant)
    (p : Participant) : Option ℚ :=
  if total_night_units participants_info = 0 then
    if participants_info.length > 0 then
      cdiv total_cost (participants_info.length : ℚ)
    else some 0
  else
    (cdiv (p.nights_stayed : ℚ) ((total_night_units participants_info : ℤ) : ℚ)).map
      (fun r => total_cost * r)

/-- `per_person_additional` with its division routed through `cdiv`
(lines 26–29). -/
def per_person_additional_checked (participants_info : List Participant)
    (additional_expenses : Expenses) : Option ℚ :=
  if participants_info.length > 0 then
    cdiv (total_shared_expenses additional_expenses) (participants_info.length : ℚ)
  else some 0

/-- `even_split_expenses` under the error-tracking semantics: the result is
`none` iff some division in the Python function would raise
`ZeroDivisionError`. -/
def even_split_expenses_checked (total_airbnb_cost : ℚ)
    (participants_info : List Participant)
    (additional_expenses : Expenses) : Option (List (String × ℚ)) :=
  Option.bind
    (participants_info.foldlM
      (fun shares p =>
        Option.map (fun c => dict_set shares p.name c)
          (cost_share_checked total_airbnb_cost participants_info p))
      [])
    (fun shares1 =>
      Option.map
        (fun ppa =>
          (participants_info.foldl (fun shares p => dict_add shares p.name ppa)
            shares1).map (fun kv => (kv.1, roundHalfUp2 kv.2)))
        (per_person_additional_checked participants_info additional_expenses))

/-- The exact value of the IEEE-754 binary64 floating-point number nearest
to the decimal 2.675.  (`6023564501608038` is its integer significand:
`2^52 ≤ 6023564501608038 < 2^53`, exponent `−51`.)  When a user enters a
total cost of 2.675, this is the `float` that actually reaches
`even_split_expenses`. -/
def float_2_675 : ℚ := 6023564501608038 / 2 ^ 51

/-! ## Helper lemmas -/

theorem cost_share_checked_eq (total_cost : ℚ) (l : List Participant)
    (p : Participant) :
    cost_share_checked total_cost l p = some (cost_share total_cost l p) := by
  by_cases h : total_night_units l = 0
  · by_cases hl : l.length > 0
    · have hne : (l.length : ℚ) ≠ 0 := (Nat.cast_pos.mpr hl).ne'
      simp [cost_share_checked, cost_share, cdiv, h, hl, hne]
    · simp [cost_share_checked, cost_share, cdiv, h, hl]
  · have hne : ((total_night_units l : ℤ) : ℚ) ≠ 0 := by exact_mod_cast h
    simp [cost_share_checked, cost_share, cdiv, h, hne]

theorem per_person_additional_checked_eq (l : List Participant) (e : Expenses) :
    per_person_additional_checked l e = some (per_person_additional l e) := by
  by_cases hl : l.length > 0
  · have hne : (l.length : ℚ) ≠ 0 := (Nat.cast_pos.mpr hl).ne'
    simp [per_person_additional_checked, per_person_additional, cdiv, hl, hne]
  · simp [per_person_additional_checked, per_person_additional, cdiv, hl]

theorem foldlM_eq_some_foldl {α β : Type} (f : β → α → Option β)
    (g : β → α → β) (hfg : ∀ b a, f b a = some (g b a)) :
    ∀ (l : List α) (b : β), l.foldlM f b = some (l.foldl g b) := by
  intro l
  induction l with
  | nil => intro b; rfl
  | cons a t ih => intro b; simp [List.foldlM, List.foldl, hfg, ih]

/-- Evaluation lemma for `roundHalfUp2` on a concrete non-negative input:
`z` certifies the floor of `x·100 + 1/2`. -/
theorem roundHalfUp2_eq_of (x r : ℚ) (z : ℤ) (h0 : 0 ≤ x)
    (h1 : (z : ℚ) ≤ x * 100 + 1/2) (h2 : x * 100 + 1/2 < z + 1)
    (hr : (z : ℚ) = r * 100) : roundHalfUp2 x = r := by
  rw [roundHalfUp2, if_pos h0, Int.floor_eq_iff.mpr ⟨h1, h2⟩, hr, mul_div_assoc]
  norm_num

/-- When every `nights_stayed` is non-negative, filtering out the
non-positive ones does not change the sum: `total_night_units` is the plain
sum of nights. -/
theorem total_night_units_eq_sum (l : List Participant)
    (h : ∀ p ∈ l, 0 ≤ p.nights_stayed) :
    total_night_units l = (l.map (fun p => p.nights_stayed)).sum := by
  induction l with
  | nil => rfl
  | cons p t ih =>
    have hp := h p (List.mem_cons_self p t)
    have ht : ∀ q ∈ t, 0 ≤ q.nights_stayed := fun q hq =>
      h q (List.mem_cons_of_mem p hq)
    by_cases hpos : p.nights_stayed > 0
    · simp [total_night_units, List.filter_cons, hpos] at ih ⊢
      simp [ih ht]
    · have h0 : p.nights_stayed = 0 := le_antisymm (not_lt.mp hpos) hp
      simp [total_night_units, List.filter_cons, hpos, h0] at ih ⊢
      simp [ih ht]

theorem total_night_units_eq_zero (l : List Participant)
    (hz : ∀ p ∈ l, p.nights_stayed = 0) : total_night_units l = 0 := by
  unfold total_night_units
  have hf : l.filter (fun p => p.nights_stayed > 0) = [] := by
    rw [List.filter_eq_nil_iff]
    intro p hp
    simp [hz p hp]
  rw [hf]
  rfl

theorem sum_map_cost_share (total_cost : ℚ) (N : ℚ) :
    ∀ (l' : List Participant),
      (l'.map (fun p => total_cost * ((p.nights_stayed : ℚ) / N))).sum =
        total_cost * (((l'.map (fun p => p.nights_stayed)).sum : ℤ) : ℚ) / N := by
  intro l'
  induction l' with
  | nil => simp
  | cons q t ih =>
    rw [List.map_cons, List.sum_cons, ih, List.map_cons, List.sum_cons]
    push_cast
    ring

/-- In the `total_night_units = 0` branch every accommodation share is the
same equal split `total_cost / participantCount`. -/
theorem breakdown_rows_map_acc_replicate (total_cost : ℚ)
    (l : List Participant) (e : Expenses) (hne : l ≠ [])
    (h0 : total_night_units l = 0) :
    (breakdown_rows total_cost l e).map (fun r => r.accommodation_share) =
      List.replicate l.length (total_cost / (l.length : ℚ)) := by
  have hlen : 0 < l.length := List.length_pos.mpr hne
  rw [breakdown_rows, List.map_map]
  apply List.eq_replicate_iff.mpr
  constructor
  · simp
  · intro b hb
    obtain ⟨p, hp, rfl⟩ := List.mem_map.mp hb
    simp [cost_share, h0, hlen]

/-- Every additional share is the same `total_shared_expenses / count`,
independent of `nights_stayed`. -/
theorem breakdown_rows_map_add_replicate (total_cost : ℚ)
    (l : List Participant) (e : Expenses) (hne : l ≠ []) :
    (breakdown_rows total_cost l e).map (fun r => r.additional_share) =
      List.replicate l.length
        (total_shared_expenses e / (l.length : ℚ)) := by
  have hlen : 0 < l.length := List.length_pos.mpr hne
  rw [breakdown_rows, List.map_map]
  apply List.eq_replicate_iff.mpr
  constructor
  · simp
  · intro b hb
    obtain ⟨p, hp, rfl⟩ := List.mem_map.mp hb
    simp [per_person_additional, hlen]

/-- Assigning a fresh key to a Python dict appends the binding. -/
theorem dict_set_fresh (d : List (String × ℚ)) (k : String) (v : ℚ)
    (h : k ∉ d.map Prod.fst) : dict_set d k v = d ++ [(k, v)] := by
  induction d with
  | nil => rfl
  | cons kv d ih =>
    rw [List.map_cons, List.mem_cons] at h
    push_neg at h
    obtain ⟨k', v'⟩ := kv
    simp only [dict_set, if_neg (Ne.symm h.1), List.cons_append]
    rw [ih h.2]

/-- The first loop of `even_split_expenses` over pairwise-distinct names
builds the association list in input order. -/
theorem foldl_dict_set_nodup (f : Participant → ℚ) :
    ∀ (l : List Participant) (d : List (String × ℚ)),
      (l.map (fun p => p.name)).Nodup →
      (∀ p ∈ l, p.name ∉ d.map Prod.fst) →
      l.foldl (fun shares p => dict_set shares p.name (f p)) d =
        d ++ l.map (fun p => (p.name, f p)) := by
  intro l
  induction l with
  | nil => simp
  | cons p t ih =>
    intro d hnd hdisj
    rw [List.foldl_cons,
      dict_set_fresh d p.name (f p) (hdisj p (List.mem_cons_self p t)),
      ih (d ++ [(p.name, f p)]) (List.nodup_cons.mp (by simpa using hnd)).2 ?_]
    · simp
    · intro q hq
      rw [List.map_append, List.mem_append]
      push_neg
      refine ⟨hdisj q (List.mem_cons_of_mem p hq), ?_⟩
      have hq' : q.name ∈ t.map (fun p => p.name) := List.mem_map_of_mem _ hq
      have hp' : p.name ∉ t.map (fun p => p.name) :=
        (List.nodup_cons.mp (by simpa using hnd)).1
      simp only [List.map_cons, List.mem_cons, List.map_nil]
      intro hcon
      rcases hcon with hcon | hcon
      · exact hp' (hcon ▸ hq')
      · simp at hcon

/-- `d[k] += x` on keys different from the head leaves the head binding in
place. -/
theorem foldl_dict_add_keep_head (x : ℚ) (kv : String × ℚ) :
    ∀ (t : List Participant) (d : List (String × ℚ)),
      (∀ q ∈ t, q.name ≠ kv.1) →
      t.foldl (fun shares p => dict_add shares p.name x) (kv :: d) =
        kv :: t.foldl (fun shares p => dict_add shares p.name x) d := by
  intro t
  induction t with
  | nil => simp
  | cons q t ih =>
    intro d hne
    obtain ⟨k', v'⟩ := kv
    rw [List.foldl_cons]
    have hk : ¬ (k' = q.name) := fun h =>
      hne q (List.mem_cons_self q t) h.symm
    have h1 : dict_add ((k', v') :: d) q.name x =
        (k', v') :: dict_add d q.name x := by
      simp [dict_add, hk]
    rw [h1, ih (dict_add d q.name x)
      (fun r hr => hne r (List.mem_cons_of_mem q hr)), List.foldl_cons]

/-- The second loop of `even_split_expenses` over pairwise-distinct names
adds `x` to every binding exactly once. -/
theorem foldl_dict_add_map (f : Participant → ℚ) (x : ℚ) :
    ∀ (l : List Participant),
      (l.map (fun p => p.name)).Nodup →
      l.foldl (fun shares p => dict_add shares p.name x)
          (l.map (fun p => (p.name, f p))) =
        l.map (fun p => (p.name, f p + x)) := by
  intro l
  induction l with
  | nil =>
    intro h
    rfl
  | cons p t ih =>
    intro hnd
    have hp' : p.name ∉ t.map (fun p => p.name) :=
      (List.nodup_cons.mp (by simpa using hnd)).1
    have hne : ∀ q ∈ t, q.name ≠ p.name := by
      intro q hq hcon
      exact hp' (hcon ▸ List.mem_map_of_mem _ hq)
    rw [List.map_cons, List.foldl_cons]
    have h1 : dict_add ((p.name, f p) :: t.map (fun p => (p.name, f p)))
        p.name x = (p.name, f p + x) :: t.map (fun p => (p.name, f p)) := by
      simp [dict_add]
    rw [h1, foldl_dict_add_keep_head x (p.name, f p + x) t _ hne,
      ih (List.nodup_cons.mp (by simpa using hnd)).2, List.map_cons]

/-- Closed form of `even_split_expenses` when the participant names are
pairwise distinct: one entry per participant in input order, owing
`roundHalfUp2 (cost_share + per_person_additional)`. -/
theorem even_split_expenses_nodup_closed_form (total_cost : ℚ)
    (l : List Participant) (e : Expenses)
    (hnd : (l.map (fun p => p.name)).Nodup) :
    even_split_expenses total_cost l e =
      l.map (fun p => (p.name,
        roundHalfUp2 (cost_share total_cost l p +
          per_person_additional l e))) := by
  have step1 : even_split_expenses total_cost l e =
      List.map (fun kv => (kv.1, roundHalfUp2 kv.2))
        (List.foldl
          (fun shares p => dict_add shares p.name (per_person_additional l e))
          (List.foldl
            (fun shares p => dict_set shares p.name (cost_share total_cost l p))
            [] l) l) := rfl
  rw [step1, foldl_dict_set_nodup (fun p => cost_share total_cost l p) l [] hnd
    (by simp), List.nil_append,
    foldl_dict_add_map (fun p => cost_share total_cost l p)
      (per_person_additional l e) l hnd, List.map_map]
  rfl

/-- The spec's concrete scenario 1, fully evaluated: `totalCost = 300`,
two participants with 2 nights each, one additional expense of 100. -/
theorem scenario1_rows :
    breakdown_rows 300 [⟨"Person1", 2⟩, ⟨"Person2", 2⟩] [("Groceries", 100)] =
      [{ participant := "Person1", nights_stayed := 2,
         accommodation_share := 150, additional_share := 50,
         total_owed := 200 },
       { participant := "Person2", nights_stayed := 2,
         accommodation_share := 150, additional_share := 50,
         total_owed := 200 }] := by
  simp [breakdown_rows, cost_share, per_person_additional, total_night_units,
    total_shared_expenses]
  norm_num
  exact roundHalfUp2_eq_of _ _ 20000 (by norm_num) (by norm_num)
    (by norm_num) (by norm_num)

/-! ## Claims -/

/-- **C1** (code bug).  The spec requires decimal-exact round-half-up at the
second decimal digit, for *every* `.005` boundary value of the raw combined
owed amount.  The code instead applies `ROUND_HALF_UP` to
`Decimal(amount)` where `amount` is a binary64 float, so the rounding sees
the binary value, not the decimal one.  For a total cost entered as 2.675
with one participant who stayed 1 night and no additional expenses, the raw
combined owed amount is the decimal 2.675 — a `.005` boundary — but the
float that reaches the rounding step is `float_2_675 < 2.675` (the nearest
binary64 value; every floating-point operation on this input is exact, so
the `ℚ` evaluation below coincides with the Python run).  The code rounds it
to 2.67, while the claim requires 2.68, which a decimal-exact
`roundHalfUp2` applied to the true decimal 2.675 would produce. -/
theorem even_split_misrounds_exact_midpoint :
    ((2:ℤ) ^ 52 ≤ 6023564501608038 ∧ (6023564501608038 : ℤ) < 2 ^ 53) ∧
    (float_2_675 < 2675/1000 ∧
      2675/1000 - float_2_675 < 6023564501608039 / 2 ^ 51 - 2675/1000) ∧
    even_split_expenses float_2_675 [⟨"A", 1⟩] [] = [("A", 267/100)] ∧
    roundHalfUp2 (2675/1000) = 268/100 ∧ (267 : ℚ)/100 ≠ 268/100 := by
  refine ⟨⟨by norm_num, by norm_num⟩,
    ⟨by norm_num [float_2_675], by norm_num [float_2_675]⟩, ?_,
    roundHalfUp2_eq_of _ _ 268 (by norm_num) (by norm_num) (by norm_num)
      (by norm_num),
    by norm_num⟩
  simp [even_split_expenses, total_night_units, total_shared_expenses,
    cost_share, per_person_additional, dict_set, dict_add, List.foldl]
  exact roundHalfUp2_eq_of _ _ 267 (by norm_num [float_2_675])
    (by norm_num [float_2_675]) (by norm_num [float_2_675]) (by norm_num)

/-- **C3** (counterexample).  `even_split_expenses` keys its result by
participant name, so two participants who share the name `"A"` collapse to a
single output entry — not one entry per input participant — and that entry
is double-charged for the additional expenses: with `totalCost = 10`, two
one-night participants named `"A"`, and a single expense of 10, each list
entry's share would be `10·(1/2) + 10/2 = 10`, but the merged entry owes
`10·(1/2) + 2·(10/2) = 15`. -/
theorem even_split_merges_duplicate_names :
    even_split_expenses 10 [⟨"A", 1⟩, ⟨"A", 1⟩] [("G", 10)] = [("A", 15)] ∧
    (even_split_expenses 10 [⟨"A", 1⟩, ⟨"A", 1⟩] [("G", 10)]).length ≠
      ([⟨"A", 1⟩, ⟨"A", 1⟩] : List Participant).length := by
  have h : even_split_expenses 10 [⟨"A", 1⟩, ⟨"A", 1⟩] [("G", 10)] =
      [("A", 15)] := by
    simp [even_split_expenses, total_night_units, total_shared_expenses,
      cost_share, per_person_additional, dict_set, dict_add, List.foldl]
    exact roundHalfUp2_eq_of _ _ 1500 (by norm_num) (by norm_num) (by norm_num)
      (by norm_num)
  exact ⟨h, by rw [h]; decide⟩

/-- **C3** (amended).  The breakdown loop in `main` does satisfy the claim:
it returns exactly one row per input participant, in input order, and row
`i` is computed from the list entry at position `i` alone (plus the global
aggregates `total_night_units` and `total_shared_expenses`), so duplicate
names neither merge nor double-charge there.  `even_split_expenses`, by
contrast, merges duplicate names (see the counterexample). -/
theorem breakdown_rows_per_position (tc : ℚ) (l : List Participant)
    (e : Expenses) (i : ℕ) (h : i < l.length) :
    (breakdown_rows tc l e).length = l.length ∧
    (breakdown_rows tc l e)[i]? = some
      { participant := l[i].name
        nights_stayed := l[i].nights_stayed
        accommodation_share := cost_share tc l l[i]
        additional_share := per_person_additional l e
        total_owed := roundHalfUp2
          (cost_share tc l l[i] + per_person_additional l e) } := by
  refine ⟨by simp [breakdown_rows], ?_⟩
  simp [breakdown_rows, List.getElem?_eq_getElem h]

/-- Witness for `breakdown_rows_per_position`: two participants sharing the
name `"A"`, position 1; the row at position 1 is the second entry's own
share (2 of 3 night-units of a 10 cost: 20/3, rounded total 6.67). -/
theorem breakdown_rows_per_position_witness :
    (breakdown_rows 10 [⟨"A", 1⟩, ⟨"A", 2⟩] []).length = 2 ∧
    (breakdown_rows 10 [⟨"A", 1⟩, ⟨"A", 2⟩] [])[1]? = some
      { participant := "A", nights_stayed := 2, accommodation_share := 20/3
        additional_share := 0, total_owed := 667/100 } := by
  have h := breakdown_rows_per_position 10 [⟨"A", 1⟩, ⟨"A", 2⟩] [] 1
    (by decide)
  refine ⟨h.1, h.2.trans ?_⟩
  simp [cost_share, total_night_units, total_shared_expenses,
    per_person_additional]
  exact ⟨by norm_num, roundHalfUp2_eq_of _ _ 667 (by norm_num) (by norm_num)
    (by norm_num) (by norm_num)⟩

/-- **C5** (confirmed).  Calling the splitter with an empty participant
list returns an empty result, and for *every* input the error-tracking
semantics `even_split_expenses_checked` — in which each division of the
source faults (`none`) on a zero denominator exactly as Python `/`
raises `ZeroDivisionError` — succeeds and returns the plain result: every
division is guarded by an explicit zero test, so no error branch is
reachable and the function is total. -/
theorem even_split_expenses_total (total_airbnb_cost : ℚ)
    (participants_info : List Participant) (additional_expenses : Expenses) :
    even_split_expenses total_airbnb_cost [] additional_expenses = [] ∧
    even_split_expenses_checked total_airbnb_cost participants_info
        additional_expenses =
      some (even_split_expenses total_airbnb_cost participants_info
        additional_expenses) := by
  constructor
  · rfl
  · have h1 : ∀ (shares : List (String × ℚ)) (p : Participant),
        Option.map (fun c => dict_set shares p.name c)
          (cost_share_checked total_airbnb_cost participants_info p) =
        some (dict_set shares p.name
          (cost_share total_airbnb_cost participants_info p)) := by
      intro shares p
      rw [cost_share_checked_eq]
      rfl
    unfold even_split_expenses_checked
    rw [foldlM_eq_some_foldl _ _ h1, per_person_additional_checked_eq]
    rfl

/-- **C2** (confirmed).  For every `totalCost ≥ 0`, every non-empty
participant list whose `nightsStayed` are all non-negative with
`total_night_units > 0`, and every additional-expense mapping, the sum of
`accommodation_share` over the breakdown rows equals `totalCost` exactly
(so in particular within the 1e-9 tolerance the spec states). -/
theorem accommodation_shares_sum_to_total_cost (total_cost : ℚ)
    (l : List Participant) (e : Expenses)
    (htc : 0 ≤ total_cost) (hne : l ≠ [])
    (hnn : ∀ p ∈ l, 0 ≤ p.nights_stayed)
    (hpos : 0 < total_night_units l) :
    ((breakdown_rows total_cost l e).map
      (fun r => r.accommodation_share)).sum = total_cost := by
  have hN : total_night_units l ≠ 0 := hpos.ne'
  have hNq : ((total_night_units l : ℤ) : ℚ) ≠ 0 := by exact_mod_cast hN
  rw [breakdown_rows, List.map_map]
  have hfun : ((fun r : Row => r.accommodation_share) ∘ (fun p : Participant =>
      ({ participant := p.name, nights_stayed := p.nights_stayed,
         accommodation_share := cost_share total_cost l p,
         additional_share := per_person_additional l e,
         total_owed := roundHalfUp2 (cost_share total_cost l p +
           per_person_additional l e) } : Row))) =
      fun p => total_cost * ((p.nights_stayed : ℚ) /
        ((total_night_units l : ℤ) : ℚ)) := by
    funext p
    simp [cost_share, hN]
  rw [hfun, sum_map_cost_share, ← total_night_units_eq_sum l hnn,
    mul_div_assoc, div_self hNq, mul_one]

/-- Witness for `accommodation_shares_sum_to_total_cost`: the spec's
scenario 2 (`totalCost = 300`, nights 1 and 3, no expenses; shares
75 + 225 = 300). -/
theorem accommodation_shares_sum_witness :
    ((breakdown_rows 300 [⟨"Person1", 1⟩, ⟨"Person2", 3⟩] []).map
      (fun r => r.accommodation_share)).sum = 300 :=
  accommodation_shares_sum_to_total_cost 300 [⟨"Person1", 1⟩, ⟨"Person2", 3⟩]
    [] (by norm_num) (by simp) (by decide) (by decide)

/-- **C4** (confirmed).  For every non-empty participant list and every
expense mapping, the additional shares are all the identical value
`total_shared_expenses / participantCount` — independent of
`nights_stayed` — and they sum to the total of the expense values exactly
(so in particular within the stated 1e-9 tolerance). -/
theorem additional_shares_even_and_conserved (total_cost : ℚ)
    (l : List Participant) (e : Expenses) (hne : l ≠ []) :
    (breakdown_rows total_cost l e).map (fun r => r.additional_share) =
      List.replicate l.length
        (total_shared_expenses e / (l.length : ℚ)) ∧
    ((breakdown_rows total_cost l e).map
      (fun r => r.additional_share)).sum = total_shared_expenses e := by
  have hlen : 0 < l.length := List.length_pos.mpr hne
  have hlq : (l.length : ℚ) ≠ 0 := (Nat.cast_pos.mpr hlen).ne'
  refine ⟨breakdown_rows_map_add_replicate total_cost l e hne, ?_⟩
  rw [breakdown_rows_map_add_replicate total_cost l e hne,
    List.sum_replicate, nsmul_eq_mul]
  field_simp

/-- Witness for `additional_shares_even_and_conserved`: scenario 1
(two participants, one expense of 100: shares `[50, 50]`, sum 100). -/
theorem additional_shares_even_and_conserved_witness :
    ((breakdown_rows 300 [⟨"Person1", 2⟩, ⟨"Person2", 2⟩]
        [("Groceries", 100)]).map (fun r => r.additional_share)).sum = 100 ∧
    (breakdown_rows 300 [⟨"Person1", 2⟩, ⟨"Person2", 2⟩]
        [("Groceries", 100)]).map (fun r => r.additional_share) = [50, 50] := by
  have h := additional_shares_even_and_conserved 300
    [⟨"Person1", 2⟩, ⟨"Person2", 2⟩] [("Groceries", 100)] (by simp)
  refine ⟨h.2.trans (by norm_num [total_shared_expenses]), h.1.trans ?_⟩
  norm_num [total_shared_expenses, List.replicate]

/-- **C6** (counterexample).  The claim additionally asserts the equal
split is "not zero"; with `totalCost = 0` and all nights zero the code's
accommodation share is `0 / 2 = 0`, so the "not zero" conjunct fails as
stated. -/
theorem equal_split_zero_cost_share_is_zero :
    ¬ (∀ r ∈ breakdown_rows 0 [⟨"A", 0⟩, ⟨"B", 0⟩] [],
        r.accommodation_share = 0 / 2 ∧ r.accommodation_share ≠ 0) := by
  intro h
  have hrows : breakdown_rows 0 [⟨"A", 0⟩, ⟨"B", 0⟩] [] =
      [{ participant := "A", nights_stayed := 0, accommodation_share := 0, additional_share := 0, total_owed := 0 },
       { participant := "B", nights_stayed := 0, accommodation_share := 0, additional_share := 0, total_owed := 0 }] := by
    simp [breakdown_rows, cost_share, per_person_additional, total_night_units,
      total_shared_expenses]
    exact roundHalfUp2_eq_of _ _ 0 (by norm_num) (by norm_num) (by norm_num)
      (by norm_num)
  rw [hrows] at h
  exact (h _ (List.mem_cons_self _ _)).2 rfl

/-- **C6** (amended).  For every non-empty participant list in which every
participant has `nights_stayed = 0`, every accommodation share equals
`totalCost / participantCount` — an equal split that includes the
zero-night participants — and this common share is nonzero whenever
`totalCost` is nonzero. -/
theorem equal_split_when_all_nights_zero (total_cost : ℚ)
    (l : List Participant) (e : Expenses) (hne : l ≠ [])
    (hz : ∀ p ∈ l, p.nights_stayed = 0) :
    (breakdown_rows total_cost l e).map (fun r => r.accommodation_share) =
      List.replicate l.length (total_cost / (l.length : ℚ)) ∧
    (total_cost ≠ 0 → total_cost / (l.length : ℚ) ≠ 0) := by
  refine ⟨breakdown_rows_map_acc_replicate total_cost l e hne
    (total_night_units_eq_zero l hz), ?_⟩
  intro htc
  have hlen : 0 < l.length := List.length_pos.mpr hne
  exact div_ne_zero htc (Nat.cast_pos.mpr hlen).ne'

/-- Witness for `equal_split_when_all_nights_zero`: the spec's scenario 3
(`totalCost = 100`, both participants zero nights: shares `[50, 50]`). -/
theorem equal_split_when_all_nights_zero_witness :
    (breakdown_rows 100 [⟨"A", 0⟩, ⟨"B", 0⟩] [("Food", 20)]).map
      (fun r => r.accommodation_share) = [50, 50] ∧
    ((100 : ℚ) ≠ 0 →
      100 / ((([⟨"A", 0⟩, ⟨"B", 0⟩] : List Participant).length : ℕ) : ℚ) ≠ 0) := by
  have h := equal_split_when_all_nights_zero 100 [⟨"A", 0⟩, ⟨"B", 0⟩]
    [("Food", 20)] (by simp) (by decide)
  exact ⟨h.1.trans (by norm_num [List.replicate]), h.2⟩

/-- **C7** (confirmed).  Every breakdown row satisfies
`total_owed = roundHalfUp2 (accommodation_share + additional_share)`: the
two shares are summed unrounded and rounded exactly once, at the end.  The
second conjunct shows the returned shares really are unrounded: for three
one-night participants and an expense of 100, both returned shares are
`100/3`, which a 2-decimal rounding would have changed. -/
theorem total_owed_rounds_unrounded_sum (total_cost : ℚ)
    (l : List Participant) (e : Expenses) (r : Row)
    (hr : r ∈ breakdown_rows total_cost l e) :
    r.total_owed =
      roundHalfUp2 (r.accommodation_share + r.additional_share) ∧
    (cost_share 100 [⟨"A", 1⟩, ⟨"B", 1⟩, ⟨"C", 1⟩] ⟨"A", 1⟩ ≠
      roundHalfUp2 (cost_share 100 [⟨"A", 1⟩, ⟨"B", 1⟩, ⟨"C", 1⟩] ⟨"A", 1⟩) ∧
    per_person_additional [⟨"A", 1⟩, ⟨"B", 1⟩, ⟨"C", 1⟩] [("G", 100)] ≠
      roundHalfUp2
        (per_person_additional [⟨"A", 1⟩, ⟨"B", 1⟩, ⟨"C", 1⟩] [("G", 100)])) := by
  refine ⟨?_, ?_, ?_⟩
  · rw [breakdown_rows] at hr
    obtain ⟨p, hp, rfl⟩ := List.mem_map.mp hr
    rfl
  · have hc : cost_share 100 [⟨"A", 1⟩, ⟨"B", 1⟩, ⟨"C", 1⟩] ⟨"A", 1⟩ =
        100/3 := by
      norm_num [cost_share, total_night_units]
    rw [hc, roundHalfUp2_eq_of (100/3) (3333/100) 3333 (by norm_num)
      (by norm_num) (by norm_num) (by norm_num)]
    norm_num
  · have hp : per_person_additional [⟨"A", 1⟩, ⟨"B", 1⟩, ⟨"C", 1⟩]
        [("G", 100)] = 100/3 := by
      norm_num [per_person_additional, total_shared_expenses]
    rw [hp, roundHalfUp2_eq_of (100/3) (3333/100) 3333 (by norm_num)
      (by norm_num) (by norm_num) (by norm_num)]
    norm_num

/-- Witness for `total_owed_rounds_unrounded_sum`: the first row of the
spec's scenario 1, whose `total_owed = 200 = roundHalfUp2 (150 + 50)`. -/
theorem total_owed_rounds_unrounded_sum_witness :
    ({ participant := "Person1", nights_stayed := 2,
       accommodation_share := 150, additional_share := 50,
       total_owed := 200 } : Row) ∈
      breakdown_rows 300 [⟨"Person1", 2⟩, ⟨"Person2", 2⟩]
        [("Groceries", 100)] ∧
    (200 : ℚ) = roundHalfUp2 (150 + 50) := by
  have hmem : ({ participant := "Person1", nights_stayed := 2, accommodation_share := 150, additional_share := 50, total_owed := 200 } : Row) ∈ breakdown_rows 300 [⟨"Person1", 2⟩, ⟨"Person2", 2⟩] [("Groceries", 100)] := by
    rw [scenario1_rows]
    exact List.mem_cons_self _ _
  exact ⟨hmem, (total_owed_rounds_unrounded_sum 300
    [⟨"Person1", 2⟩, ⟨"Person2", 2⟩] [("Groceries", 100)] _ hmem).1⟩

/-- **C8** (confirmed).  For pairwise-distinct participant names, the dict
returned by `even_split_expenses` is exactly the (participant, rounded
total owed) pairs of the breakdown rows that `main` recomputes, entry for
entry in input order: the two computations of the split agree. -/
theorem even_split_matches_breakdown (total_cost : ℚ)
    (l : List Participant) (e : Expenses)
    (hnd : (l.map (fun p => p.name)).Nodup) :
    even_split_expenses total_cost l e =
      (breakdown_rows total_cost l e).map
        (fun r => (r.participant, r.total_owed)) := by
  rw [even_split_expenses_nodup_closed_form total_cost l e hnd,
    breakdown_rows, List.map_map]
  rfl

/-- Witness for `even_split_matches_breakdown`: scenario 1, with the common
value also evaluated: both computations give Person1 ↦ 200, Person2 ↦ 200. -/
theorem even_split_matches_breakdown_witness :
    (([⟨"Person1", 2⟩, ⟨"Person2", 2⟩] : List Participant).map
      (fun p => p.name)).Nodup ∧
    even_split_expenses 300 [⟨"Person1", 2⟩, ⟨"Person2", 2⟩]
        [("Groceries", 100)] =
      (breakdown_rows 300 [⟨"Person1", 2⟩, ⟨"Person2", 2⟩]
        [("Groceries", 100)]).map (fun r => (r.participant, r.total_owed)) ∧
    even_split_expenses 300 [⟨"Person1", 2⟩, ⟨"Person2", 2⟩]
        [("Groceries", 100)] = [("Person1", 200), ("Person2", 200)] := by
  have h := even_split_matches_breakdown 300 [⟨"Person1", 2⟩, ⟨"Person2", 2⟩]
    [("Groceries", 100)] (by decide)
  refine ⟨by decide, h, h.trans ?_⟩
  rw [scenario1_rows]
  rfl

/-- **C9** (confirmed).  Conservation of `totalCost` also holds in the
equal-split branch the spec's invariant excludes: with a non-empty
participant list and `total_night_units = 0`, the accommodation shares
(each `totalCost / participantCount`) sum to `totalCost` exactly. -/
theorem accommodation_shares_sum_equal_split (total_cost : ℚ)
    (l : List Participant) (e : Expenses) (hne : l ≠ [])
    (h0 : total_night_units l = 0) :
    ((breakdown_rows total_cost l e).map
      (fun r => r.accommodation_share)).sum = total_cost := by
  have hlen : 0 < l.length := List.length_pos.mpr hne
  have hlq : (l.length : ℚ) ≠ 0 := (Nat.cast_pos.mpr hlen).ne'
  rw [breakdown_rows_map_acc_replicate total_cost l e hne h0,
    List.sum_replicate, nsmul_eq_mul]
  field_simp

/-- Witness for `accommodation_shares_sum_equal_split`: scenario 3
(`totalCost = 100`, all nights zero: 50 + 50 = 100). -/
theorem accommodation_shares_sum_equal_split_witness :
    ((breakdown_rows 100 [⟨"A", 0⟩, ⟨"B", 0⟩] [("Food", 20)]).map
      (fun r => r.accommodation_share)).sum = 100 :=
  accommodation_shares_sum_equal_split 100 [⟨"A", 0⟩, ⟨"B", 0⟩]
    [("Food", 20)] (by simp) (by decide)

/-- **C10** (confirmed).  Both computations of the split read the expense
mapping only through the sum of its values: two mappings with equal value
sums give identical results, for both `even_split_expenses` and the
breakdown rows — labels and the partition of the total never matter. -/
theorem splitter_depends_only_on_expense_sum (total_cost : ℚ)
    (l : List Participant) (e1 e2 : Expenses)
    (h : total_shared_expenses e1 = total_shared_expenses e2) :
    even_split_expenses total_cost l e1 = even_split_expenses total_cost l e2 ∧
    breakdown_rows total_cost l e1 = breakdown_rows total_cost l e2 := by
  unfold even_split_expenses breakdown_rows per_person_additional
  rw [h]
  exact ⟨rfl, rfl⟩

/-- Witness for `splitter_depends_only_on_expense_sum`: `{G: 10, H: 20}`
and `{X: 30}` have the same value sum and give identical outputs. -/
theorem splitter_depends_only_on_expense_sum_witness :
    total_shared_expenses [("G", 10), ("H", 20)] =
      total_shared_expenses [("X", 30)] ∧
    even_split_expenses 30 [⟨"A", 1⟩] [("G", 10), ("H", 20)] =
      even_split_expenses 30 [⟨"A", 1⟩] [("X", 30)] ∧
    breakdown_rows 30 [⟨"A", 1⟩] [("G", 10), ("H", 20)] =
      breakdown_rows 30 [⟨"A", 1⟩] [("X", 30)] := by
  have h := splitter_depends_only_on_expense_sum 30 [⟨"A", 1⟩]
    [("G", 10), ("H", 20)] [("X", 30)] (by norm_num [total_shared_expenses])
  exact ⟨by norm_num [total_shared_expenses], h.1, h.2⟩

end TriPlan
